import Mathlib

/-!
# Verification of the acestream-scraper EPG auto-mapping workflow

Shallow embedding of the EPG Channel–EPG Matcher and the mapping-rule
UI helpers of the repository. The client-side code
(`app/static/js/epg.js`, the EPG template) is embedded directly from
the source; the backend matcher endpoints (`/api/epg/auto-scan`,
`/api/channels?search=...`) are not part of the shown sources, so the
matcher itself and the preview filter are modelled from the spec
(sections 3, 4.1, 4.2, 7 of spec.md).
-/

namespace AcestreamEpg

/-- A scraped stream channel (spec section 3). -/
structure Channel where
  id : String
  name : String
  epg_id : Option String
  deriving Repr, DecidableEq

/-- An EPG channel record from an XMLTV-like feed (spec section 3). -/
structure EPGChannel where
  id : String
  name : String
  aliases : List String
  deriving Repr, DecidableEq

/-- A user-authored mapping rule (spec section 3). -/
structure MappingRule where
  pattern : String
  is_exclusion : Bool
  epg_channel_id : Option String
  deriving Repr, DecidableEq

/-- Boolean test that `pat` is a prefix of `hay` (character lists). -/
def isPrefixB : List Char → List Char → Bool
  | [], _ => true
  | _ :: _, [] => false
  | p :: ps, h :: hs => (p == h) && isPrefixB ps hs

/-- Boolean test that `pat` occurs as a contiguous substring of `hay`. -/
def hasInfixB (pat : List Char) : List Char → Bool
  | [] => pat.isEmpty
  | h :: hs => isPrefixB pat (h :: hs) || hasInfixB pat hs

/-- The characters of a string, case-folded. -/
def lowerData (s : String) : List Char :=
  s.data.map Char.toLower

/-- Case-insensitive substring containment: the rule pattern `pat` is
contained in the channel name `hay` after lower-casing both
(spec section 4.1, step 2). -/
def containsCI (hay pat : String) : Bool :=
  hasInfixB (lowerData pat) (lowerData hay)

/-- Splits a character list into maximal whitespace-free words;
`cur` accumulates the current word reversed. -/
def wordsAux : List Char → List Char → List String
  | cur, [] => if cur.isEmpty then [] else [String.mk cur.reverse]
  | cur, ch :: cs =>
    if ch.isWhitespace then
      if cur.isEmpty then wordsAux [] cs
      else String.mk cur.reverse :: wordsAux [] cs
    else wordsAux (ch :: cur) cs

/-- Modelled from the spec: the backend similarity metric is not among
the shown sources; spec section 4.1 step 3 prescribes a token-overlap
measure after case-folding and whitespace normalization. `normTokens`
is the normalized token sequence of a string: case-folded, split on
whitespace, empty tokens dropped. -/
def normTokens (s : String) : List String :=
  wordsAux [] (lowerData s)

/-- The set of normalized tokens of a string. -/
def tokenSet (s : String) : Finset String :=
  (normTokens s).toFinset

/-- Modelled from the spec: token-overlap (Jaccard) similarity in
[0,1]; 1 when both token sets are empty (identical after
normalization), otherwise intersection size over union size
(spec section 4.1, step 3). -/
def similarity (a b : String) : ℚ :=
  if tokenSet a ∪ tokenSet b = ∅ then 1
  else ((tokenSet a ∩ tokenSet b).card : ℚ) / ((tokenSet a ∪ tokenSet b).card : ℚ)

theorem similarity_comm (a b : String) : similarity a b = similarity b a := by
  unfold similarity
  rw [Finset.union_comm, Finset.inter_comm]

theorem similarity_nonneg (a b : String) : 0 ≤ similarity a b := by
  unfold similarity
  split
  · norm_num
  · positivity

theorem similarity_le_one (a b : String) : similarity a b ≤ 1 := by
  unfold similarity
  split
  · exact le_refl 1
  · rename_i h
    have hpos : 0 < ((tokenSet a ∪ tokenSet b).card : ℚ) := by
      have : 0 < (tokenSet a ∪ tokenSet b).card :=
        Finset.card_pos.mpr (Finset.nonempty_iff_ne_empty.mpr h)
      exact_mod_cast this
    rw [div_le_one hpos]
    exact_mod_cast Finset.card_le_card
      (Finset.inter_subset_union)

theorem similarity_self_tokens {a b : String}
    (h : normTokens a = normTokens b) : similarity a b = 1 := by
  unfold similarity
  have hset : tokenSet a = tokenSet b := by
    unfold tokenSet; rw [h]
  rw [hset, Finset.union_self, Finset.inter_self]
  split
  · rfl
  · rename_i hne
    have : 0 < (tokenSet b).card :=
      Finset.card_pos.mpr (Finset.nonempty_iff_ne_empty.mpr hne)
    rw [div_self]
    exact_mod_cast this.ne.symm

theorem similarity_disjoint {a b : String}
    (hint : tokenSet a ∩ tokenSet b = ∅)
    (hne : tokenSet a ∪ tokenSet b ≠ ∅) : similarity a b = 0 := by
  unfold similarity
  rw [if_neg hne, hint]
  simp

/-- Per-channel outcome of a matcher run, driving the summary counts
(spec section 4.1, output). -/
inductive Outcome where
  | skipped
  | matched
  | cleaned
  | unchanged
  deriving Repr, DecidableEq

/-- Summary counts reported by a run (spec sections 4.1 and 6). -/
structure RunStats where
  matched : Nat
  cleaned : Nat
  skipped : Nat
  deriving Repr, DecidableEq

/-- Matcher error conditions (spec section 7). -/
inductive MatchError where
  | invalidThreshold
  | invalidRule
  deriving Repr, DecidableEq

/-- The MappingRule well-formedness invariant: exactly one of
exclusion-without-target or direct-mapping-with-target (spec
section 3). -/
def validRule (r : MappingRule) : Bool :=
  (r.is_exclusion && r.epg_channel_id == none)
    || (!r.is_exclusion && r.epg_channel_id != none)

/-- Rules are evaluated in insertion order; the first rule whose
pattern is contained case-insensitively in the name wins (spec
section 4.1, step 2). -/
def firstMatchingRule (rules : List MappingRule) (name : String) : Option MappingRule :=
  rules.find? (fun r => containsCI name r.pattern)

/-- Modelled from the spec: score of a channel name against one EPG
channel — maximum similarity over the EPG channel's name and each of
its aliases (spec section 4.1, step 3). -/
def channelScore (name : String) (e : EPGChannel) : ℚ :=
  ((e.name :: e.aliases).map (fun s => similarity name s)).foldl max 0

/-- Modelled from the spec: the EPG channel with the highest score,
ties broken by earliest index in `epgs` (spec section 4.1, step 4).
Returns the chosen EPG channel id and its score. -/
def bestMatch (epgs : List EPGChannel) (name : String) : Option (String × ℚ) :=
  epgs.foldl
    (fun acc e =>
      match acc with
      | none => some (e.id, channelScore name e)
      | some (i0, s0) =>
        if s0 < channelScore name e then some (e.id, channelScore name e)
        else some (i0, s0))
    none

/-- Modelled from the spec: decide one channel, returning the updated
channel and its outcome (spec section 4.1, algorithm steps 1-5). -/
def matchChannel (rules : List MappingRule) (epgs : List EPGChannel) (t : ℚ)
    (respectExisting cleanUnmatched : Bool) (c : Channel) : Channel × Outcome :=
  if respectExisting && c.epg_id.isSome then (c, .skipped)
  else
    match firstMatchingRule rules c.name with
    | some r =>
      if r.is_exclusion then
        if cleanUnmatched then ({ c with epg_id := none }, .cleaned)
        else (c, .unchanged)
      else ({ c with epg_id := r.epg_channel_id }, .matched)
    | none =>
      match bestMatch epgs c.name with
      | some (eid, s) =>
        if t ≤ s then ({ c with epg_id := some eid }, .matched)
        else if cleanUnmatched then ({ c with epg_id := none }, .cleaned)
        else (c, .unchanged)
      | none =>
        if cleanUnmatched then ({ c with epg_id := none }, .cleaned)
        else (c, .unchanged)

/-- Summary counts from the per-channel outcomes. -/
def runStats (outs : List Outcome) : RunStats :=
  { matched := outs.count .matched
    cleaned := outs.count .cleaned
    skipped := outs.count .skipped }

/-- Modelled from the spec: a full matcher run. Validates the
threshold (spec section 7, InvalidThreshold) and the loaded rules
(spec section 7, InvalidRule) before touching any channel, then
evaluates every channel in input order (spec section 4.1). -/
def runMatcher (channels : List Channel) (epgs : List EPGChannel)
    (rules : List MappingRule) (t : ℚ)
    (respectExisting cleanUnmatched : Bool) :
    Except MatchError (List Channel × RunStats) :=
  if t < 0 ∨ 1 < t then .error .invalidThreshold
  else if rules.all validRule = false then .error .invalidRule
  else
    .ok
      (channels.map (fun c => (matchChannel rules epgs t respectExisting cleanUnmatched c).1),
       runStats (channels.map (fun c => (matchChannel rules epgs t respectExisting cleanUnmatched c).2)))

/-- The channel list actually persisted after a run: the run's output
on success, the untouched input on failure (spec section 5: the run
is one logical batch, no partial commits). -/
def finalChannels (channels : List Channel)
    (r : Except MatchError (List Channel × RunStats)) : List Channel :=
  match r with
  | .ok (out, _) => out
  | .error _ => channels

theorem runMatcher_ok_eq {cs : List Channel} {epgs : List EPGChannel}
    {rules : List MappingRule} {t : ℚ} {re cu : Bool}
    {out : List Channel} {st : RunStats}
    (h : runMatcher cs epgs rules t re cu = Except.ok (out, st)) :
    out = cs.map (fun c => (matchChannel rules epgs t re cu c).1) ∧
    st = runStats (cs.map (fun c => (matchChannel rules epgs t re cu c).2)) := by
  unfold runMatcher at h
  split at h
  · exact absurd h (by simp)
  · split at h
    · exact absurd h (by simp)
    · rw [Except.ok.injEq, Prod.mk.injEq] at h
      exact ⟨h.1.symm, h.2.symm⟩

theorem matchChannel_skip {rules : List MappingRule} {epgs : List EPGChannel}
    {t : ℚ} {re cu : Bool} {c : Channel}
    (h : (re && c.epg_id.isSome) = true) :
    matchChannel rules epgs t re cu c = (c, Outcome.skipped) := by
  unfold matchChannel
  rw [h]
  simp

theorem matchChannel_snd_ne_skipped {rules : List MappingRule} {epgs : List EPGChannel}
    {t : ℚ} {re cu : Bool} {c : Channel}
    (h : (re && c.epg_id.isSome) = false) :
    (matchChannel rules epgs t re cu c).2 ≠ Outcome.skipped := by
  unfold matchChannel
  rw [h]
  simp only [Bool.false_eq_true, if_false]
  split
  · split
    · split <;> simp
    · simp
  · split
    · split
      · simp
      · split <;> simp
    · split <;> simp

theorem count_skipped_eq {rules : List MappingRule} {epgs : List EPGChannel}
    {t : ℚ} {cu : Bool} (cs : List Channel) :
    (cs.map (fun c => (matchChannel rules epgs t true cu c).2)).count Outcome.skipped
      = (cs.filter (fun c => c.epg_id.isSome)).length := by
  induction cs with
  | nil => rfl
  | cons c cs ih =>
    rw [List.map_cons, List.count_cons, List.filter_cons, ih]
    by_cases hc : c.epg_id.isSome = true
    · rw [matchChannel_skip (by rw [hc, Bool.true_and])]
      simp [hc]
    · have hne := @matchChannel_snd_ne_skipped rules epgs t true cu c
        (by rw [Bool.true_and]; exact Bool.not_eq_true _ ▸ hc)
      simp [hc, hne]

/-- C1: with respect_existing=true, every channel with a non-null
epg_id before the run is left entirely unchanged by the run, and the
skipped count equals the number of such channels. -/
theorem respect_existing_skips_assigned
    (cs : List Channel) (epgs : List EPGChannel) (rules : List MappingRule)
    (t : ℚ) (cu : Bool) (out : List Channel) (st : RunStats)
    (hrun : runMatcher cs epgs rules t true cu = Except.ok (out, st)) :
    (∀ i (h : i < cs.length), (cs.get ⟨i, h⟩).epg_id ≠ none →
      out.get? i = some (cs.get ⟨i, h⟩)) ∧
    st.skipped = (cs.filter (fun c => c.epg_id.isSome)).length := by
  obtain ⟨hout, hst⟩ := runMatcher_ok_eq hrun
  constructor
  · intro i h hne
    subst hout
    rw [List.get?_map, List.get?_eq_get h]
    have hs : (cs.get ⟨i, h⟩).epg_id.isSome = true :=
      Option.isSome_iff_ne_none.mpr hne
    rw [Option.map_some', matchChannel_skip (by rw [hs, Bool.true_and])]
  · subst hst
    exact count_skipped_eq cs

theorem respect_existing_skips_assigned_witness :
    ([⟨"c1", "ESPN HD", some "espn.us"⟩] : List Channel).get? 0
        = some (⟨"c1", "ESPN HD", some "espn.us"⟩ : Channel) ∧
    (1 : Nat) = (([⟨"c1", "ESPN HD", some "espn.us"⟩] : List Channel).filter
        (fun c => c.epg_id.isSome)).length := by
  have h := respect_existing_skips_assigned
    [⟨"c1", "ESPN HD", some "espn.us"⟩] [] [] 1 true
    [⟨"c1", "ESPN HD", some "espn.us"⟩] ⟨0, 0, 1⟩ rfl
  exact ⟨h.1 0 (by decide) (by decide), h.2⟩

theorem matchChannel_exclusion {rules : List MappingRule} {epgs : List EPGChannel}
    {t : ℚ} {re cu : Bool} {c : Channel} {r : MappingRule}
    (hns : (re && c.epg_id.isSome) = false)
    (hrule : firstMatchingRule rules c.name = some r)
    (hexcl : r.is_exclusion = true) :
    matchChannel rules epgs t re cu c =
      if cu then ({ c with epg_id := none }, Outcome.cleaned)
      else (c, Outcome.unchanged) := by
  unfold matchChannel
  rw [hns]
  simp only [Bool.false_eq_true, if_false, hrule, hexcl, if_true]

theorem matchChannel_direct {rules : List MappingRule} {epgs : List EPGChannel}
    {t : ℚ} {re cu : Bool} {c : Channel} {r : MappingRule}
    (hns : (re && c.epg_id.isSome) = false)
    (hrule : firstMatchingRule rules c.name = some r)
    (hdir : r.is_exclusion = false) :
    matchChannel rules epgs t re cu c =
      ({ c with epg_id := r.epg_channel_id }, Outcome.matched) := by
  unfold matchChannel
  rw [hns]
  simp only [Bool.false_eq_true, if_false, hrule, hdir]

/-- C2 counterexample: with respect_existing=true a channel whose
non-null epg_id marks it as skipped keeps that epg_id even though its
name matches the (first and only) exclusion rule and
clean_unmatched=true, so "epg_id is null iff clean_unmatched=true"
fails as stated. -/
theorem exclusion_rule_iff_cex :
    runMatcher [⟨"c1", "ESPN HD", some "keep"⟩] []
        [⟨"ESPN", true, none⟩] 1 true true
      = Except.ok ([⟨"c1", "ESPN HD", some "keep"⟩], ⟨0, 0, 1⟩) ∧
    firstMatchingRule [⟨"ESPN", true, none⟩] "ESPN HD" = some ⟨"ESPN", true, none⟩ ∧
    (Channel.mk "c1" "ESPN HD" (some "keep")).epg_id ≠ none :=
  ⟨rfl, by decide, by decide⟩

/-- C2 (amended): for a channel not skipped by respect_existing whose
first matching rule is an exclusion rule, the run sets the channel's
epg_id to null when clean_unmatched=true and leaves it unchanged
otherwise, regardless of the EPG channel set and threshold. -/
theorem exclusion_rule_cleans_or_preserves
    (cs : List Channel) (epgs : List EPGChannel) (rules : List MappingRule)
    (t : ℚ) (re cu : Bool) (out : List Channel) (st : RunStats)
    (r : MappingRule) (i : ℕ) (h : i < cs.length)
    (hrun : runMatcher cs epgs rules t re cu = Except.ok (out, st))
    (hns : (re && (cs.get ⟨i, h⟩).epg_id.isSome) = false)
    (hrule : firstMatchingRule rules (cs.get ⟨i, h⟩).name = some r)
    (hexcl : r.is_exclusion = true) :
    out.get? i = some { cs.get ⟨i, h⟩ with
      epg_id := if cu then none else (cs.get ⟨i, h⟩).epg_id } := by
  obtain ⟨hout, -⟩ := runMatcher_ok_eq hrun
  subst hout
  rw [List.get?_map, List.get?_eq_get h, Option.map_some',
    matchChannel_exclusion hns hrule hexcl]
  cases cu <;> rfl

theorem exclusion_rule_cleans_or_preserves_witness :
    ([⟨"c1", "ESPN HD", none⟩] : List Channel).get? 0
      = some (⟨"c1", "ESPN HD", none⟩ : Channel) :=
  exclusion_rule_cleans_or_preserves
    [⟨"c1", "ESPN HD", some "old"⟩] [] [⟨"ESPN", true, none⟩] 1 false true
    [⟨"c1", "ESPN HD", none⟩] ⟨0, 1, 0⟩ ⟨"ESPN", true, none⟩ 0
    (by decide) rfl (by decide) (by decide) (by decide)

/-- C3: for a channel not skipped by respect_existing whose first
matching rule (in insertion order) is a direct mapping, the rule's
pattern is contained case-insensitively in the channel name, the
channel's epg_id after the run equals the rule's target id, and the
result is identical under any other EPG channel set and threshold
(similarity scoring is never consulted). -/
theorem direct_rule_assigns_target
    (cs : List Channel) (epgs epgs2 : List EPGChannel) (rules : List MappingRule)
    (t t2 : ℚ) (re cu : Bool) (out out2 : List Channel) (st st2 : RunStats)
    (r : MappingRule) (i : ℕ) (h : i < cs.length)
    (hrun : runMatcher cs epgs rules t re cu = Except.ok (out, st))
    (hrun2 : runMatcher cs epgs2 rules t2 re cu = Except.ok (out2, st2))
    (hns : (re && (cs.get ⟨i, h⟩).epg_id.isSome) = false)
    (hrule : firstMatchingRule rules (cs.get ⟨i, h⟩).name = some r)
    (hdir : r.is_exclusion = false) :
    containsCI (cs.get ⟨i, h⟩).name r.pattern = true ∧
    out.get? i = some { cs.get ⟨i, h⟩ with epg_id := r.epg_channel_id } ∧
    out2.get? i = out.get? i := by
  obtain ⟨hout, -⟩ := runMatcher_ok_eq hrun
  obtain ⟨hout2, -⟩ := runMatcher_ok_eq hrun2
  subst hout
  subst hout2
  have hrule2 : rules.find? (fun x => containsCI (cs.get ⟨i, h⟩).name x.pattern) = some r :=
    hrule
  have hcont : (fun x => containsCI (cs.get ⟨i, h⟩).name x.pattern) r = true :=
    @List.find?_some MappingRule (fun x => containsCI (cs.get ⟨i, h⟩).name x.pattern)
      r rules hrule2
  refine ⟨hcont, ?_, ?_⟩
  · rw [List.get?_map, List.get?_eq_get h, Option.map_some',
      matchChannel_direct hns hrule hdir]
  · rw [List.get?_map, List.get?_eq_get h, Option.map_some',
      matchChannel_direct hns hrule hdir,
      List.get?_map, List.get?_eq_get h, Option.map_some',
      matchChannel_direct hns hrule hdir]

theorem direct_rule_assigns_target_witness :
    containsCI "ESPN HD" "ESPN" = true ∧
    ([⟨"c1", "ESPN HD", some "espn.us"⟩] : List Channel).get? 0
      = some (⟨"c1", "ESPN HD", some "espn.us"⟩ : Channel) ∧
    ([⟨"c1", "ESPN HD", some "espn.us"⟩] : List Channel).get? 0
      = ([⟨"c1", "ESPN HD", some "espn.us"⟩] : List Channel).get? 0 :=
  direct_rule_assigns_target
    [⟨"c1", "ESPN HD", none⟩] [] [⟨"e1", "zzz", []⟩]
    [⟨"ESPN", false, some "espn.us"⟩] 1 0 false false
    [⟨"c1", "ESPN HD", some "espn.us"⟩] [⟨"c1", "ESPN HD", some "espn.us"⟩]
    ⟨1, 0, 0⟩ ⟨1, 0, 0⟩ ⟨"ESPN", false, some "espn.us"⟩ 0
    (by decide) rfl rfl (by decide) (by decide) (by decide)

theorem matchChannel_no_rule_some {rules : List MappingRule} {epgs : List EPGChannel}
    {t : ℚ} {re cu : Bool} {c : Channel} {eid : String} {s : ℚ}
    (hns : (re && c.epg_id.isSome) = false)
    (hfr : firstMatchingRule rules c.name = none)
    (hbm : bestMatch epgs c.name = some (eid, s)) :
    matchChannel rules epgs t re cu c =
      if t ≤ s then ({ c with epg_id := some eid }, Outcome.matched)
      else if cu then ({ c with epg_id := none }, Outcome.cleaned)
      else (c, Outcome.unchanged) := by
  unfold matchChannel
  rw [hns]
  simp only [Bool.false_eq_true, if_false, hfr, hbm]

theorem matchChannel_no_rule_none {rules : List MappingRule} {epgs : List EPGChannel}
    {t : ℚ} {re cu : Bool} {c : Channel}
    (hns : (re && c.epg_id.isSome) = false)
    (hfr : firstMatchingRule rules c.name = none)
    (hbm : bestMatch epgs c.name = none) :
    matchChannel rules epgs t re cu c =
      if cu then ({ c with epg_id := none }, Outcome.cleaned)
      else (c, Outcome.unchanged) := by
  unfold matchChannel
  rw [hns]
  simp only [Bool.false_eq_true, if_false, hfr, hbm]

theorem matchChannel_matched_antitone {rules : List MappingRule}
    {epgs : List EPGChannel} {re cu : Bool} {c : Channel} {t1 t2 : ℚ}
    (hle : t1 ≤ t2)
    (h2 : (matchChannel rules epgs t2 re cu c).2 = Outcome.matched) :
    (matchChannel rules epgs t1 re cu c).2 = Outcome.matched := by
  by_cases hb : (re && c.epg_id.isSome) = true
  · rw [matchChannel_skip hb] at h2
    simp at h2
  · have hb2 : (re && c.epg_id.isSome) = false := by
      cases hx : (re && c.epg_id.isSome)
      · rfl
      · exact absurd hx hb
    cases hfr : firstMatchingRule rules c.name with
    | some r =>
      cases hre : r.is_exclusion
      · rw [matchChannel_direct hb2 hfr hre]
      · rw [matchChannel_exclusion hb2 hfr hre] at h2
        split at h2 <;> simp at h2
    | none =>
      cases hbm : bestMatch epgs c.name with
      | none =>
        rw [matchChannel_no_rule_none hb2 hfr hbm] at h2
        split at h2 <;> simp at h2
      | some p =>
        obtain ⟨eid, s⟩ := p
        rw [matchChannel_no_rule_some hb2 hfr hbm] at h2
        rw [matchChannel_no_rule_some hb2 hfr hbm]
        by_cases hts : t2 ≤ s
        · rw [if_pos (le_trans hle hts)]
        · rw [if_neg hts] at h2
          split at h2 <;> simp at h2

theorem count_matched_antitone {rules : List MappingRule}
    {epgs : List EPGChannel} {re cu : Bool} {t1 t2 : ℚ}
    (hle : t1 ≤ t2) (cs : List Channel) :
    (cs.map (fun c => (matchChannel rules epgs t2 re cu c).2)).count Outcome.matched
      ≤ (cs.map (fun c => (matchChannel rules epgs t1 re cu c).2)).count Outcome.matched := by
  induction cs with
  | nil => exact le_refl 0
  | cons c cs ih =>
    rw [List.map_cons, List.map_cons, List.count_cons, List.count_cons]
    by_cases hm : (matchChannel rules epgs t2 re cu c).2 = Outcome.matched
    · rw [hm, matchChannel_matched_antitone hle hm]
      simpa using ih
    · have : ((matchChannel rules epgs t2 re cu c).2 == Outcome.matched) = false := by
        simpa using hm
      rw [this]
      simp only [if_false, Bool.false_eq_true, Nat.add_zero]
      exact le_trans ih (Nat.le_add_right _ _)

/-- C4: for a fixed input set, raising the threshold never increases
the matched count reported by a run. -/
theorem matched_count_threshold_antitone
    (cs : List Channel) (epgs : List EPGChannel) (rules : List MappingRule)
    (re cu : Bool) (t1 t2 : ℚ) (out1 out2 : List Channel) (st1 st2 : RunStats)
    (hlt : t1 < t2)
    (h1 : runMatcher cs epgs rules t1 re cu = Except.ok (out1, st1))
    (h2 : runMatcher cs epgs rules t2 re cu = Except.ok (out2, st2)) :
    st2.matched ≤ st1.matched := by
  obtain ⟨-, hst1⟩ := runMatcher_ok_eq h1
  obtain ⟨-, hst2⟩ := runMatcher_ok_eq h2
  subst hst1
  subst hst2
  exact count_matched_antitone (le_of_lt hlt) cs

theorem matched_count_threshold_antitone_witness :
    (RunStats.mk 1 0 0).matched ≤ (RunStats.mk 1 0 0).matched :=
  matched_count_threshold_antitone
    [⟨"c1", "ESPN HD", none⟩] [] [⟨"ESPN", false, some "espn.us"⟩] false false
    0 1 [⟨"c1", "ESPN HD", some "espn.us"⟩] [⟨"c1", "ESPN HD", some "espn.us"⟩]
    ⟨1, 0, 0⟩ ⟨1, 0, 0⟩ (by decide) rfl rfl

/-- C5: the similarity metric is symmetric, bounded in [0,1], equal
to 1 on strings that are identical after case-folding and whitespace
normalization (in particular on case-insensitively identical
strings), and equal to 0 on disjoint strings (no shared token, not
both empty). -/
theorem similarity_metric_properties :
    (∀ a b, similarity a b = similarity b a) ∧
    (∀ a b, 0 ≤ similarity a b ∧ similarity a b ≤ 1) ∧
    (∀ a b, normTokens a = normTokens b → similarity a b = 1) ∧
    (∀ a b, lowerData a = lowerData b → similarity a b = 1) ∧
    (∀ a b, tokenSet a ∩ tokenSet b = ∅ → tokenSet a ∪ tokenSet b ≠ ∅ →
      similarity a b = 0) :=
  ⟨similarity_comm,
   fun a b => ⟨similarity_nonneg a b, similarity_le_one a b⟩,
   fun _ _ h => similarity_self_tokens h,
   fun _ _ h => similarity_self_tokens (by unfold normTokens; rw [h]),
   fun _ _ h1 h2 => similarity_disjoint h1 h2⟩

theorem similarity_metric_properties_witness :
    similarity "ESPN HD" "hd espn" = similarity "hd espn" "ESPN HD" ∧
    (0 ≤ similarity "Fox" "CNN" ∧ similarity "Fox" "CNN" ≤ 1) ∧
    similarity "ESPN  HD " "espn hd" = 1 ∧
    similarity "Espn Hd" "ESPN HD" = 1 ∧
    similarity "abc def" "xyz" = 0 := by
  have h := similarity_metric_properties
  exact ⟨h.1 _ _, h.2.1 _ _, h.2.2.1 _ _ (by decide), h.2.2.2.1 _ _ (by decide),
    h.2.2.2.2 _ _ (by decide) (by decide)⟩

theorem runMatcher_invalidThreshold_iff
    (cs : List Channel) (epgs : List EPGChannel) (rules : List MappingRule)
    (t : ℚ) (re cu : Bool) :
    runMatcher cs epgs rules t re cu = Except.error MatchError.invalidThreshold
      ↔ (t < 0 ∨ 1 < t) := by
  constructor
  · intro he
    by_contra hnot
    unfold runMatcher at he
    rw [if_neg hnot] at he
    split at he <;> simp_all
  · intro ht
    unfold runMatcher
    rw [if_pos ht]

/-- The threshold the Auto Map UI supplies: the slider value divided
by 100 (scanChannels in app/static/js/epg.js line 829; the slider is
constrained to min=50, max=95, step=5 in the EPG template). -/
def scanThreshold (v : ℕ) : ℚ :=
  (v : ℚ) / 100

/-- C7: a run fails with InvalidThreshold, leaving the channels
untouched, exactly when the threshold is outside [0,1]; and every
threshold the Auto Map UI can supply (slider value between 50 and 95,
divided by 100) lies in [0.50, 0.95], so UI-originated runs never hit
that branch. -/
theorem invalid_threshold_guard :
    (∀ cs epgs rules t re cu,
      (t < 0 ∨ 1 < t) ↔
        runMatcher cs epgs rules t re cu = Except.error MatchError.invalidThreshold) ∧
    (∀ cs epgs rules t re cu, (t < 0 ∨ 1 < t) →
      finalChannels cs (runMatcher cs epgs rules t re cu) = cs) ∧
    (∀ v : ℕ, 50 ≤ v → v ≤ 95 →
      1/2 ≤ scanThreshold v ∧ scanThreshold v ≤ 19/20 ∧
      ∀ cs epgs rules re cu,
        runMatcher cs epgs rules (scanThreshold v) re cu
          ≠ Except.error MatchError.invalidThreshold) := by
  refine ⟨?_, ?_, ?_⟩
  · intro cs epgs rules t re cu
    exact (runMatcher_invalidThreshold_iff cs epgs rules t re cu).symm
  · intro cs epgs rules t re cu ht
    rw [(runMatcher_invalidThreshold_iff cs epgs rules t re cu).mpr ht]
    rfl
  · intro v h50 h95
    have hv50 : (50 : ℚ) ≤ (v : ℚ) := by exact_mod_cast h50
    have hv95 : (v : ℚ) ≤ 95 := by exact_mod_cast h95
    have hlo : 1/2 ≤ scanThreshold v := by
      unfold scanThreshold
      rw [div_le_div_iff (by norm_num) (by norm_num)]
      linarith
    have hhi : scanThreshold v ≤ 19/20 := by
      unfold scanThreshold
      rw [div_le_div_iff (by norm_num) (by norm_num)]
      linarith
    refine ⟨hlo, hhi, ?_⟩
    intro cs epgs rules re cu heq
    have := (runMatcher_invalidThreshold_iff cs epgs rules (scanThreshold v) re cu).mp heq
    rcases this with hneg | hbig
    · linarith
    · linarith

theorem invalid_threshold_guard_witness :
    runMatcher [] [] [] 2 true true = Except.error MatchError.invalidThreshold ∧
    finalChannels [⟨"c1", "A", none⟩] (runMatcher [⟨"c1", "A", none⟩] [] [] 2 true true)
      = [⟨"c1", "A", none⟩] ∧
    1/2 ≤ scanThreshold 75 ∧ scanThreshold 75 ≤ 19/20 ∧
    runMatcher [] [] [] (scanThreshold 75) true true
      ≠ Except.error MatchError.invalidThreshold := by
  have h := invalid_threshold_guard
  have h75 := h.2.2 75 (by decide) (by decide)
  exact ⟨(h.1 [] [] [] 2 true true).mp (Or.inr (by decide)),
    h.2.1 [⟨"c1", "A", none⟩] [] [] 2 true true (Or.inr (by decide)),
    h75.1, h75.2.1, h75.2.2 [] [] [] true true⟩

/-- C8: the run is batch-atomic in the functional model: a malformed
rule (with a valid threshold) makes the whole run fail with
InvalidRule; on any failure the persisted channel list is the
untouched input; and on success every channel was evaluated and the
full mapped batch is what is persisted. -/
theorem run_batch_atomicity :
    (∀ cs epgs rules (t : ℚ) re cu (r : MappingRule), r ∈ rules →
      validRule r = false → 0 ≤ t → t ≤ 1 →
      runMatcher cs epgs rules t re cu = Except.error MatchError.invalidRule) ∧
    (∀ cs epgs rules (t : ℚ) re cu e,
      runMatcher cs epgs rules t re cu = Except.error e →
      finalChannels cs (runMatcher cs epgs rules t re cu) = cs) ∧
    (∀ cs epgs rules (t : ℚ) re cu out st,
      runMatcher cs epgs rules t re cu = Except.ok (out, st) →
      out = cs.map (fun c => (matchChannel rules epgs t re cu c).1) ∧
      finalChannels cs (runMatcher cs epgs rules t re cu) = out) := by
  refine ⟨?_, ?_, ?_⟩
  · intro cs epgs rules t re cu r hmem hbad ht0 ht1
    unfold runMatcher
    rw [if_neg (by push_neg; exact ⟨ht0, ht1⟩)]
    cases hall : rules.all validRule with
    | false => rw [if_pos rfl]
    | true =>
      exfalso
      have := List.all_eq_true.mp hall r hmem
      rw [hbad] at this
      exact Bool.false_ne_true this
  · intro cs epgs rules t re cu e he
    rw [he]
    rfl
  · intro cs epgs rules t re cu out st hok
    obtain ⟨hout, -⟩ := runMatcher_ok_eq hok
    rw [hok]
    exact ⟨hout, rfl⟩

theorem run_batch_atomicity_witness :
    runMatcher [⟨"c1", "A", none⟩] [] [⟨"x", true, some "y"⟩] 0 true true
      = Except.error MatchError.invalidRule ∧
    finalChannels [⟨"c1", "A", none⟩]
        (runMatcher [⟨"c1", "A", none⟩] [] [⟨"x", true, some "y"⟩] 0 true true)
      = [⟨"c1", "A", none⟩] ∧
    finalChannels [] (runMatcher [] [] [] 0 true true) = [] := by
  have h := run_batch_atomicity
  have h1 := h.1 [⟨"c1", "A", none⟩] [] [⟨"x", true, some "y"⟩] 0 true true
    ⟨"x", true, some "y"⟩ (by decide) (by decide) (by decide) (by decide)
  exact ⟨h1,
    h.2.1 [⟨"c1", "A", none⟩] [] [⟨"x", true, some "y"⟩] 0 true true
      MatchError.invalidRule h1,
    (h.2.2 [] [] [] 0 true true [] ⟨0, 0, 0⟩ rfl).2⟩

/-- The whitespace class trimmed by JavaScript String.prototype.trim:
space, tab, line feed, vertical tab, form feed, carriage return,
no-break space, BOM and the Unicode line/paragraph separators. -/
def isJsWhitespace (ch : Char) : Bool :=
  ch == ' ' || ch == '\t' || ch == '\n' || ch == '\r' || ch == '\x0B'
    || ch == '\x0C' || ch == '\u00A0' || ch == '\uFEFF'
    || ch == '\u2028' || ch == '\u2029'

/-- JavaScript `value.trim()`: strip leading and trailing whitespace
(used throughout app/static/js/epg.js on form inputs). -/
def jsTrim (s : String) : String :=
  String.mk (((s.data.dropWhile isJsWhitespace).reverse.dropWhile
    isJsWhitespace).reverse)

/-- The form state read by saveEpgMapping (app/static/js/epg.js
lines 697-700): the pattern input, the exclusion checkbox and the EPG
channel id input. -/
structure MappingForm where
  pattern : String
  isExclusion : Bool
  epgChannelId : String
  deriving Repr, DecidableEq

/-- The mapping row sent to POST /api/epg/mappings (epg.js
lines 716-726). -/
structure StoredMapping where
  search_pattern : String
  epg_channel_id : String
  deriving Repr, DecidableEq

/-- saveEpgMapping (epg.js lines 697-727): trims the inputs, forces an
empty target id for exclusion rules, rejects an empty pattern and a
non-exclusion rule without target id, and encodes exclusion by
prefixing the stored pattern with an exclamation mark. `none` models
the early-return validation failures. -/
def saveEpgMapping (f : MappingForm) : Option StoredMapping :=
  let searchPattern := jsTrim f.pattern
  let epgChannelId := if f.isExclusion then "" else jsTrim f.epgChannelId
  if searchPattern = "" then none
  else if f.isExclusion = false ∧ epgChannelId = "" then none
  else some ⟨if f.isExclusion then "!" ++ searchPattern else searchPattern, epgChannelId⟩

/-- Models `mapping.search_pattern.startsWith('!')` in loadEpgMappings
(epg.js line 201). -/
def startsBang (s : String) : Bool :=
  s.data.head? == some '!'

/-- What loadEpgMappings recovers for display (epg.js lines 200-213):
the exclusion flag from the leading exclamation mark, and the display
pattern with that mark stripped (`substring(1)`). -/
structure DecodedMapping where
  isExclusion : Bool
  displayPattern : String
  deriving Repr, DecidableEq

/-- The decode half of the round trip (epg.js lines 200-213). -/
def decodeMapping (m : StoredMapping) : DecodedMapping :=
  if startsBang m.search_pattern then ⟨true, String.mk m.search_pattern.data.tail⟩
  else ⟨false, m.search_pattern⟩

theorem decodeMapping_bang (p q : String) :
    decodeMapping ⟨"!" ++ p, q⟩ = ⟨true, p⟩ :=
  rfl

theorem decodeMapping_no_bang (m : StoredMapping)
    (h : m.search_pattern.data.head? ≠ some '!') :
    decodeMapping m = ⟨false, m.search_pattern⟩ := by
  unfold decodeMapping
  have hsb : startsBang m.search_pattern = false := by
    unfold startsBang
    exact beq_eq_false_iff_ne.mpr h
  rw [hsb]
  rfl

/-- C6 counterexample: a non-exclusion rule whose entered pattern
itself starts with an exclamation mark is stored verbatim and then
decoded as an exclusion rule, so the round trip fails as stated. -/
theorem mapping_roundtrip_cex :
    saveEpgMapping ⟨"!ESPN", false, "espn.us"⟩ = some ⟨"!ESPN", "espn.us"⟩ ∧
    (decodeMapping ⟨"!ESPN", "espn.us"⟩).isExclusion = true ∧
    (MappingForm.mk "!ESPN" false "espn.us").isExclusion = false := by
  refine ⟨?_, by decide, by decide⟩
  decide

/-- C6 (amended): for every saved rule that is an exclusion rule or
whose trimmed pattern does not start with an exclamation mark, the
decoded exclusion flag and pattern equal the entered ones, and
exactly one of {exclusion, empty stored target id} or {non-exclusion,
non-empty stored target id} holds. Non-exclusion rules whose pattern
starts with an exclamation mark decode as exclusions instead. -/
theorem mapping_roundtrip_amended (f : MappingForm) (m : StoredMapping)
    (hsave : saveEpgMapping f = some m)
    (hok : f.isExclusion = true ∨ (jsTrim f.pattern).data.head? ≠ some '!') :
    (decodeMapping m).isExclusion = f.isExclusion ∧
    (decodeMapping m).displayPattern = jsTrim f.pattern ∧
    (f.isExclusion = true → m.epg_channel_id = "") ∧
    (f.isExclusion = false → m.epg_channel_id ≠ "") := by
  cases hexcl : f.isExclusion with
  | true =>
    unfold saveEpgMapping at hsave
    rw [hexcl] at hsave
    simp only [if_true, Bool.true_eq_false, false_and, if_false] at hsave
    split at hsave
    · exact absurd hsave (by simp)
    · rw [Option.some.injEq] at hsave
      subst hsave
      rw [decodeMapping_bang]
      exact ⟨rfl, rfl, fun _ => rfl, fun hf => absurd hf (by simp)⟩
  | false =>
    unfold saveEpgMapping at hsave
    rw [hexcl] at hsave
    simp only [Bool.false_eq_true, if_false, eq_self_iff_true, true_and] at hsave
    split at hsave
    · exact absurd hsave (by simp)
    · split at hsave
      · exact absurd hsave (by simp)
      · rename_i hpat hid
        rw [Option.some.injEq] at hsave
        subst hsave
        have hnb : (jsTrim f.pattern).data.head? ≠ some '!' := by
          rcases hok with hT | hh
          · rw [hexcl] at hT
            exact absurd hT (by simp)
          · exact hh
        rw [decodeMapping_no_bang ⟨jsTrim f.pattern, jsTrim f.epgChannelId⟩ hnb]
        exact ⟨rfl, rfl, fun ht => absurd ht (by simp), fun _ => hid⟩

theorem mapping_roundtrip_amended_witness :
    ((decodeMapping ⟨"ESPN", "espn.us"⟩).isExclusion
        = (MappingForm.mk " ESPN " false " espn.us ").isExclusion ∧
      (decodeMapping ⟨"ESPN", "espn.us"⟩).displayPattern = jsTrim " ESPN " ∧
      ((MappingForm.mk " ESPN " false " espn.us ").isExclusion = true →
        (StoredMapping.mk "ESPN" "espn.us").epg_channel_id = "") ∧
      ((MappingForm.mk " ESPN " false " espn.us ").isExclusion = false →
        (StoredMapping.mk "ESPN" "espn.us").epg_channel_id ≠ "")) :=
  mapping_roundtrip_amended ⟨" ESPN ", false, " espn.us "⟩ ⟨"ESPN", "espn.us"⟩
    (by decide) (Or.inr (by decide))

/-- The result cap the mapping-preview UI requests from the backend:
epg.js line 664 queries /api/channels with limit=10. -/
def uiPreviewLimit : Nat :=
  10

/-- Modelled from the spec: the backend channel search behind
/api/channels?search=...&limit=... is not among the shown sources;
spec section 4.2 specifies the pure function
preview(pattern, channels, limit): the first `limit` channels, in
input order, whose name contains the pattern case-insensitively. -/
def preview (pattern : String) : List Channel → Nat → List Channel
  | [], _ => []
  | _ :: _, 0 => []
  | c :: rest, Nat.succ l =>
    if containsCI c.name pattern then c :: preview pattern rest l
    else preview pattern rest (Nat.succ l)

/-- C9: preview returns exactly the first `limit` channels, in input
channel order, whose name contains the pattern case-insensitively
(fewer if fewer match), and the UI invocation fixes the limit to 10.
As a pure function it modifies no state. -/
theorem preview_first_matches :
    (∀ p cs l, preview p cs l
      = (cs.filter (fun c => containsCI c.name p)).take l) ∧
    (∀ p cs, preview p cs uiPreviewLimit
      = (cs.filter (fun c => containsCI c.name p)).take 10) := by
  have hmain : ∀ p (cs : List Channel) l,
      preview p cs l = (cs.filter (fun c => containsCI c.name p)).take l := by
    intro p cs
    induction cs with
    | nil =>
      intro l
      cases l <;> rfl
    | cons c rest ih =>
      intro l
      cases l with
      | zero => rfl
      | succ l =>
        rw [List.filter_cons]
        by_cases hc : containsCI c.name p = true
        · rw [hc]
          simp only [if_true, List.take_succ_cons]
          unfold preview
          rw [hc]
          simp only [if_true, ih l]
        · have hc2 : containsCI c.name p = false := by
            cases hx : containsCI c.name p
            · rfl
            · exact absurd hx hc
          rw [hc2]
          simp only [Bool.false_eq_true, if_false]
          unfold preview
          rw [hc2]
          simp only [Bool.false_eq_true, if_false, ih (Nat.succ l)]
  exact ⟨hmain, fun p cs => hmain p cs uiPreviewLimit⟩

/-- The observable effect of previewMatchingChannels (epg.js
lines 649-692): with an empty trimmed pattern it shows a zero match
count and the placeholder and issues no backend query; otherwise it
queries /api/channels with the trimmed pattern and limit 10. -/
inductive PreviewEffect where
  | noQuery (shownCount : Nat)
  | query (pattern : String) (limit : Nat)
  deriving Repr, DecidableEq

/-- previewMatchingChannels (epg.js lines 649-692), reduced to its
observable effect. -/
def previewMatchingChannels (input : String) : PreviewEffect :=
  if jsTrim input = "" then PreviewEffect.noQuery 0
  else PreviewEffect.query (jsTrim input) 10

/-- C10: for every input that is empty or consists only of
whitespace, previewMatchingChannels issues no backend query and
reports a match count of zero (the placeholder branch). -/
theorem empty_pattern_preview_no_query (s : String)
    (hws : ∀ ch ∈ s.data, isJsWhitespace ch = true) :
    previewMatchingChannels s = PreviewEffect.noQuery 0 := by
  have hnil : s.data.dropWhile isJsWhitespace = [] :=
    List.dropWhile_eq_nil_iff.mpr hws
  have htrim : jsTrim s = "" := by
    unfold jsTrim
    rw [hnil]
    rfl
  unfold previewMatchingChannels
  rw [htrim]
  rfl

theorem empty_pattern_preview_no_query_witness :
    previewMatchingChannels "  \t " = PreviewEffect.noQuery 0 :=
  empty_pattern_preview_no_query "  \t " (by decide)

end AcestreamEpg
